import Mathlib

/-!
Shallow embedding of `xesmf/frontend.py` (the user-facing layer of xESMF).

Arrays are modelled as a shape list plus a flat, row-major data list of
rationals (numpy float64 values are abstracted as `Rat`; no claim here
depends on floating-point rounding).  Stateful operations on the file
system are modelled by explicit state passing over an association list of
file names, and the observable notices / engine invocations are recorded
as an event trace.  Python exceptions are modelled by `Except`.

The geometric engine (`xesmf.backend`) and the sparse-matrix module
(`xesmf.smm`) are external collaborators whose code is not part of the
frontend source; their boundary behaviour is modelled from the spec and
each such definition is marked `Modelled from the spec:` in its doc
comment.
-/

set_option maxHeartbeats 1000000

namespace XESMF

/-- A numpy ndarray: a shape together with its row-major flat data. -/
structure NpArray where
  shape : List Nat
  data : List Rat
deriving DecidableEq

/-- Number of axes, numpy `ndim`. -/
def NpArray.ndim (a : NpArray) : Nat := a.shape.length

/-- Total number of elements, numpy `size`. -/
def NpArray.size (a : NpArray) : Nat := a.shape.prod

/-- Row-major linearisation of a multi-index for the given shape. -/
def ravelIndex : List Nat → List Nat → Nat
  | [], _ => 0
  | _, [] => 0
  | _ :: restShape, i :: restIdx => i * restShape.prod + ravelIndex restShape restIdx

/-- Inverse of `ravelIndex`: split a linear index into a multi-index. -/
def unravelIndex : List Nat → Nat → List Nat
  | [], _ => []
  | _ :: restShape, k => (k / restShape.prod) :: unravelIndex restShape (k % restShape.prod)

/-- Numpy `.T`: reverse all axes (for 2D, the usual matrix transpose). -/
def NpArray.transpose (a : NpArray) : NpArray :=
  { shape := a.shape.reverse
    data := (List.range a.shape.prod).map (fun k =>
      a.data.getD (ravelIndex a.shape ((unravelIndex a.shape.reverse k).reverse)) 0) }

/-- Python exceptions that the frontend can raise, named after the spec's
error taxonomy where it gives a name:
* `shapeError` models the `AssertionError` of the shape precondition in
  `regrid_numpy` (the spec's `ShapeError`);
* `typeError` models Python `TypeError`;
* `valueError` models Python `ValueError` (raised by `as_2d_mesh` and by
  the tuple unpacking of a non-2-element `shape`);
* `missingBounds` models Python `KeyError` on a missing mapping key, in
  particular a grid structure without `lon_b`/`lat_b` (the spec's
  `MissingBoundsError`). -/
inductive XError where
  | shapeError
  | typeError
  | valueError
  | missingBounds
deriving DecidableEq

/-- Numpy `np.meshgrid(x, y)`: both results have shape `(len y, len x)`;
the first repeats `x` along rows (varies along the last axis), the second
repeats each entry of `y` across a row (varies along the first axis). -/
def np_meshgrid (x y : NpArray) : NpArray × NpArray :=
  let nx := x.size
  let ny := y.size
  (⟨[ny, nx], (List.replicate ny x.data).flatten⟩,
   ⟨[ny, nx], (y.data.map (fun v => List.replicate nx v)).flatten⟩)

/-- Embedding of `frontend.as_2d_mesh`: pass 2D coordinates through,
expand a pair of 1D coordinates by `np.meshgrid`, and raise `ValueError`
for any other combination of dimensionalities. -/
def as_2d_mesh (lon lat : NpArray) : Except XError (NpArray × NpArray) :=
  if lon.ndim = 2 ∧ lat.ndim = 2 then
    .ok (lon, lat)
  else if lon.ndim = 1 ∧ lat.ndim = 1 then
    .ok (np_meshgrid lon lat)
  else
    .error .valueError

/-- Handle returned by the external geometric engine's grid constructor;
it records exactly the arguments the frontend passed in.
Modelled from the spec: `build_grid(lon, lat, periodic?) -> GridHandle`
plus `add_bounds` for corner arrays (`xesmf.backend` is not part of the
frontend source). -/
structure GridHandle where
  lon : NpArray
  lat : NpArray
  periodic : Option Bool
  lon_b : Option NpArray
  lat_b : Option NpArray
deriving DecidableEq

/-- Modelled from the spec: the engine's `build_grid` boundary, a pure
constructor of a grid handle from the passed arrays. -/
def esmf_grid (lon lat : NpArray) (periodic : Option Bool) : GridHandle :=
  { lon := lon, lat := lat, periodic := periodic, lon_b := none, lat_b := none }

/-- Modelled from the spec: the engine's `add_bounds` boundary, attaching
corner arrays to a grid handle. -/
def add_corner (grid : GridHandle) (lon_b lat_b : NpArray) : GridHandle :=
  { grid with lon_b := some lon_b, lat_b := some lat_b }

/-- An input grid structure (xarray Dataset or dictionary) with keys
`lon`, `lat` and optionally `lon_b`, `lat_b`. -/
structure DSGrid where
  lon : NpArray
  lat : NpArray
  lon_b : Option NpArray
  lat_b : Option NpArray
deriving DecidableEq

/-- Embedding of `frontend.ds_to_ESMFgrid`: transpose the coordinate
arrays to Fortran order and hand them to the engine; when bounds are
needed, also transpose and attach the corner arrays (a missing key raises,
modelled as `missingBounds`).  Note that the source never calls
`as_2d_mesh` here: the coordinate arrays are passed to the engine as
found. -/
def ds_to_ESMFgrid (ds : DSGrid) (need_bounds : Bool) (periodic : Option Bool) :
    Except XError GridHandle :=
  let lon := ds.lon
  let lat := ds.lat
  let grid := esmf_grid lon.transpose lat.transpose periodic
  if need_bounds then
    match ds.lon_b, ds.lat_b with
    | some lon_b, some lat_b => .ok (add_corner grid lon_b.transpose lat_b.transpose)
    | _, _ => .error .missingBounds
  else
    .ok grid

/-- Sparse weight matrix of shape `(n_out, n_in)`, stored as COO triplets
`(row, col, weight)`. -/
structure SparseMatrix where
  n_out : Nat
  n_in : Nat
  triplets : List (Nat × Nat × Rat)
deriving DecidableEq

/-- The file system visible to the frontend: an association list from
file names to the sparse triplets stored in each weight file. -/
structure FS where
  files : List (String × List (Nat × Nat × Rat))
deriving DecidableEq

/-- Python `os.path.exists`. -/
def FS.pathExists (fs : FS) (f : String) : Bool :=
  fs.files.any (fun p => p.1 == f)

/-- Python `os.remove`. -/
def FS.removeFile (fs : FS) (f : String) : FS :=
  ⟨fs.files.filter (fun p => p.1 != f)⟩

/-- Persisting a weight file (the engine's side effect). -/
def FS.writeFile (fs : FS) (f : String) (w : List (Nat × Nat × Rat)) : FS :=
  ⟨(f, w) :: fs.files⟩

/-- Observable events of the weight-file lifecycle: the advisory notices
printed by the frontend, the deletion of a stale file, and an invocation
of the geometric engine's weight computation. -/
inductive Event where
  | createNotice
  | reuseNotice
  | overwriteNotice
  | fileRemoved
  | engineBuild
  | removeNotice
  | alreadyRemovedNotice
deriving DecidableEq

/-- The external geometric engine's weight computation, abstracted as an
arbitrary function from the two grid handles and the method name to the
sparse triplets it would persist. -/
def EngineFn : Type :=
  GridHandle → GridHandle → String → List (Nat × Nat × Rat)

/-- Modelled from the spec: `esmf_regrid_build` of `xesmf.backend` (not
under the frontend source) computes weights for `(grid_in, grid_out,
method)` and persists them to `filename` as a side effect. -/
def esmf_regrid_build (engine : EngineFn) (grid_in grid_out : GridHandle)
    (method filename : String) (fs : FS) : FS :=
  fs.writeFile filename (engine grid_in grid_out method)

/-- Embedding of `Regridder._write_weight_file`: decide between building,
reusing or overwriting the weight artifact, returning the new file system
and the trace of notices / deletions / engine invocations. -/
def write_weight_file (engine : EngineFn) (grid_in grid_out : GridHandle)
    (method filename : String) (reuse_weights : Bool) (fs : FS) :
    FS × List Event :=
  if fs.pathExists filename then
    if reuse_weights then
      (fs, [Event.reuseNotice])
    else
      let fs1 := fs.removeFile filename
      (esmf_regrid_build engine grid_in grid_out method filename fs1,
       [Event.overwriteNotice, Event.fileRemoved, Event.engineBuild])
  else
    (esmf_regrid_build engine grid_in grid_out method filename fs,
     [Event.createNotice, Event.engineBuild])

/-- Modelled from the spec: `smm.read_weights` (not under the frontend
source) reads the persisted triplets at `filename` and constructs the
sparse matrix of shape `(n_out, n_in)`. -/
def read_weights (fs : FS) (filename : String) (n_in n_out : Nat) : SparseMatrix :=
  { n_out := n_out, n_in := n_in,
    triplets := (fs.files.lookup filename).getD [] }

/-- Modelled from the spec: `smm.apply_weights` (not under the frontend
source).  Flatten the trailing two axes into one axis of length `N_in`
and all leading axes into a batch axis, right-multiply the flattened
batch by the transposed sparse matrix, and reshape the result to
`leading_shape ++ [Ny_out, Nx_out]`. -/
def apply_weights (A : SparseMatrix) (indata : NpArray) (ny_out nx_out : Nat) : NpArray :=
  let lead := indata.shape.take (indata.shape.length - 2)
  let nIn := (indata.shape.drop (indata.shape.length - 2)).prod
  let batch := lead.prod
  let outFlat := ((List.range batch).map (fun b =>
    (List.range (ny_out * nx_out)).map (fun i =>
      A.triplets.foldl (fun acc t =>
        if t.1 = i then acc + t.2.2 * ((indata.data.drop (b * nIn)).getD t.2.1 0)
        else acc) 0))).flatten
  { shape := lead ++ [ny_out, nx_out], data := outFlat }

/-- Embedding of `Regridder._get_default_filename`:
`"{method}_{Ny_in}x{Nx_in}_{Ny_out}x{Nx_out}"` plus `"_peri.nc"` when the
stored periodic flag is set, else `".nc"`. -/
def get_default_filename (method : String) (ny_in nx_in ny_out nx_out : Nat)
    (periodic : Bool) : String :=
  let filename := method ++ "_" ++ toString ny_in ++ "x" ++ toString nx_in
    ++ "_" ++ toString ny_out ++ "x" ++ toString nx_out
  if periodic then filename ++ "_peri.nc" else filename ++ ".nc"

/-- The regridder object: output coordinates retained for metadata
reattachment, the method switches, both grid handles, the shape data,
the weight-file name and the loaded sparse matrix. -/
structure Regridder where
  lon_out : NpArray
  lat_out : NpArray
  need_bounds : Bool
  method : String
  periodic : Bool
  reuse_weights : Bool
  grid_in : GridHandle
  grid_out : GridHandle
  Ny_in : Nat
  Nx_in : Nat
  Ny_out : Nat
  Nx_out : Nat
  N_in : Nat
  N_out : Nat
  filename : String
  A : SparseMatrix
deriving DecidableEq

/-- Python tuple unpacking `ny, nx = arr.shape`: succeeds exactly when the
shape has two elements, otherwise raises `ValueError`. -/
def shape2 (a : NpArray) : Except XError (Nat × Nat) :=
  match a.shape with
  | [ny, nx] => .ok (ny, nx)
  | _ => .error .valueError

/-- The basic switches recorded at the top of `Regridder.__init__`:
`need_bounds` is true exactly for `'conservative'`, which also forces
`periodic` to `False`; every other method keeps the caller's `periodic`.
Returns `(need_bounds, periodic)`. -/
def method_switches (method : String) (periodic : Bool) : Bool × Bool :=
  if method == "conservative" then (true, false) else (false, periodic)

/-- Embedding of `Regridder.__init__`: record the output coordinates and
the method switches (`need_bounds` true only for `'conservative'`, which
also forces `periodic` to `False`), build both grid handles, unpack the
grid shapes from the un-normalized coordinate arrays, derive the filename
when not supplied, run the weight-file decision and load the weights. -/
def Regridder.init (engine : EngineFn) (ds_in ds_out : DSGrid) (method : String)
    (periodic : Bool) (filename : Option String) (reuse_weights : Bool) (fs : FS) :
    Except XError (Regridder × FS × List Event) :=
  let lon_out := ds_out.lon
  let lat_out := ds_out.lat
  let sw := method_switches method periodic
  let need_bounds := sw.1
  let periodic := sw.2
  match ds_to_ESMFgrid ds_in need_bounds (some periodic) with
  | .error e => .error e
  | .ok grid_in =>
    match ds_to_ESMFgrid ds_out need_bounds none with
    | .error e => .error e
    | .ok grid_out =>
      match shape2 ds_in.lon, shape2 ds_out.lon with
      | .error e, _ => .error e
      | .ok _, .error e => .error e
      | .ok sh_in, .ok sh_out =>
        let ny_in := sh_in.1
        let nx_in := sh_in.2
        let ny_out := sh_out.1
        let nx_out := sh_out.2
        let n_in := ds_in.lon.size
        let n_out := ds_out.lon.size
        let fname := match filename with
          | none => get_default_filename method ny_in nx_in ny_out nx_out periodic
          | some f => f
        let wres := write_weight_file engine grid_in grid_out method fname
          reuse_weights fs
        let A := read_weights wres.1 fname n_in n_out
        .ok ({ lon_out := lon_out, lat_out := lat_out, need_bounds := need_bounds,
               method := method, periodic := periodic, reuse_weights := reuse_weights,
               grid_in := grid_in, grid_out := grid_out,
               Ny_in := ny_in, Nx_in := nx_in, Ny_out := ny_out, Nx_out := nx_out,
               N_in := n_in, N_out := n_out, filename := fname, A := A }, wres.1, wres.2)

/-- Embedding of `Regridder.regrid_numpy`: assert that the rightmost two
axes of the input equal the declared input grid shape, then apply the
loaded weights. -/
def Regridder.regrid_numpy (rg : Regridder) (indata : NpArray) : Except XError NpArray :=
  let shape_horiz := indata.shape.drop (indata.shape.length - 2)
  if shape_horiz = [rg.Ny_in, rg.Nx_in] then
    .ok (apply_weights rg.A indata rg.Ny_out rg.Nx_out)
  else
    .error .shapeError

/-- Embedding of `Regridder.clean_weight_file`: remove the weight file
when it exists, otherwise only note that it is already gone; the
regridder itself (in particular the loaded matrix `A`) is returned
untouched. -/
def Regridder.clean_weight_file (rg : Regridder) (fs : FS) :
    Regridder × FS × List Event :=
  if fs.pathExists rg.filename then
    (rg, fs.removeFile rg.filename, [Event.removeNotice])
  else
    (rg, fs, [Event.alreadyRemovedNotice])

/-- A coordinate variable attached to a `DataArray`: its dimension names
and its values. -/
abbrev Coord := List String × NpArray

/-- An xarray `DataArray`, reduced to what the frontend touches: name,
dimension names, the raw values, the attached coordinates (an insertion-
ordered mapping from names to coordinate variables) and the attributes. -/
structure DataArray where
  name : Option String
  dims : List String
  values : NpArray
  coords : List (String × Coord)
  attrs : List (String × String)
deriving DecidableEq

/-- Mapping lookup `m[k]` on an insertion-ordered association list. -/
def lookupKey {α : Type _} : List (String × α) → String → Option α
  | [], _ => none
  | p :: t, k => if k = p.1 then some p.2 else lookupKey t k

/-- Mapping membership `k in m`. -/
def hasKey {α : Type _} (cs : List (String × α)) (k : String) : Bool :=
  (lookupKey cs k).isSome

/-- Mapping-style assignment `coords[k] = v`: replace the entry when the
key is present, append it otherwise. -/
def insertCoord (cs : List (String × Coord)) (k : String) (v : Coord) :
    List (String × Coord) :=
  if hasKey cs k then
    cs.map (fun p => if p.1 = k then (k, v) else p)
  else
    cs ++ [(k, v)]

/-- The loop `for dim in extra_dims: dr_out.coords[dim] = dr_in.coords[dim]`;
a dimension without a coordinate on the source raises `KeyError`, modelled
by the missing-key constructor `missingBounds`. -/
def copyExtraCoords (src : DataArray) : List String → List (String × Coord) →
    Except XError (List (String × Coord))
  | [], cs => .ok cs
  | d :: ds, cs =>
    match lookupKey src.coords d with
    | some c => copyExtraCoords src ds (insertCoord cs d c)
    | none => .error .missingBounds

/-- Embedding of `Regridder.regrid_dataarray`: regrid the raw values,
rebuild a `DataArray` with the same dimension names and name, attach the
output grid's `lon`/`lat` over the trailing two dimension names, copy the
coordinates of every extra dimension across, and record the method in the
attributes. -/
def Regridder.regrid_dataarray (rg : Regridder) (dr_in : DataArray) :
    Except XError DataArray :=
  match rg.regrid_numpy dr_in.values with
  | .error e => .error e
  | .ok outdata =>
    let dim_names := dr_in.dims
    let horiz_dims := dim_names.drop (dim_names.length - 2)
    let extra_dims := dim_names.take (dim_names.length - 2)
    let varname := dr_in.name
    let cs1 := insertCoord [] "lon" (horiz_dims, rg.lon_out)
    let cs2 := insertCoord cs1 "lat" (horiz_dims, rg.lat_out)
    match copyExtraCoords dr_in extra_dims cs2 with
    | .error e => .error e
    | .ok cs3 =>
      .ok { name := varname, dims := dim_names, values := outdata,
            coords := cs3, attrs := [("regrid_method", rg.method)] }

/-- The possible arguments of `Regridder.__call__`: a bare numpy array, an
xarray `DataArray`, or anything else. -/
inductive RegridInput where
  | npArr (a : NpArray)
  | dataArr (d : DataArray)
  | other
deriving DecidableEq

/-- The possible results of `Regridder.__call__`. -/
inductive RegridOutput where
  | npArr (a : NpArray)
  | dataArr (d : DataArray)
deriving DecidableEq

/-- Embedding of `Regridder.__call__`: dispatch on the input
representation — numpy arrays to `regrid_numpy`, `DataArray`s to
`regrid_dataarray`, anything else raises `TypeError`. -/
def Regridder.call (rg : Regridder) : RegridInput → Except XError RegridOutput
  | .npArr a => (rg.regrid_numpy a).map RegridOutput.npArr
  | .dataArr d => (rg.regrid_dataarray d).map RegridOutput.dataArr
  | .other => .error .typeError

instance {ε α : Type _} [DecidableEq ε] [DecidableEq α] : DecidableEq (Except ε α) :=
  fun a b =>
    match a, b with
    | .ok x, .ok y =>
      decidable_of_iff (x = y) ⟨fun h => h ▸ rfl, fun h => by injection h⟩
    | .error x, .error y =>
      decidable_of_iff (x = y) ⟨fun h => h ▸ rfl, fun h => by injection h⟩
    | .ok _, .error _ => isFalse (fun h => Except.noConfusion h)
    | .error _, .ok _ => isFalse (fun h => Except.noConfusion h)

/-- Concrete 3x4 input-grid longitude (row-major 0..11). -/
def exLonIn : NpArray := ⟨[3, 4], (List.range 12).map (fun n => (n : Rat))⟩

/-- Concrete 3x4 input-grid latitude. -/
def exLatIn : NpArray := ⟨[3, 4], (List.range 12).map (fun n => ((n + 100 : Nat) : Rat))⟩

/-- Concrete 2x2 output-grid longitude. -/
def exLonOut : NpArray := ⟨[2, 2], [0, 1, 2, 3]⟩

/-- Concrete 2x2 output-grid latitude. -/
def exLatOut : NpArray := ⟨[2, 2], [0, 2, 4, 6]⟩

/-- Concrete input grid structure, 3x4 without bounds. -/
def exDsIn : DSGrid := ⟨exLonIn, exLatIn, none, none⟩

/-- Concrete output grid structure, 2x2 without bounds. -/
def exDsOut : DSGrid := ⟨exLonOut, exLatOut, none, none⟩

/-- A concrete engine that produces no triplets. -/
def exEngine : EngineFn := fun _ _ _ => []

/-- The empty file system. -/
def fs0 : FS := ⟨[]⟩

/-- A concrete regridder for a 3x4 input grid and a 2x2 output grid with
the bilinear method. -/
def exRegridder : Regridder :=
  { lon_out := exLonOut, lat_out := exLatOut, need_bounds := false,
    method := "bilinear", periodic := false, reuse_weights := false,
    grid_in := esmf_grid exLonIn.transpose exLatIn.transpose (some false),
    grid_out := esmf_grid exLonOut.transpose exLatOut.transpose none,
    Ny_in := 3, Nx_in := 4, Ny_out := 2, Nx_out := 2, N_in := 12, N_out := 4,
    filename := "bilinear_3x4_2x2.nc", A := ⟨4, 12, []⟩ }

/-- C1: for input whose trailing two axes are the input-grid shape and
whose leading axes form an arbitrary shape `S`, `regrid_numpy` succeeds
and returns an array of shape `S ++ [Ny_out, Nx_out]`. -/
theorem regrid_numpy_shape_consistency (rg : Regridder) (a : NpArray) (S : List Nat)
    (h : a.shape = S ++ [rg.Ny_in, rg.Nx_in]) :
    rg.regrid_numpy a = .ok (apply_weights rg.A a rg.Ny_out rg.Nx_out) ∧
    (apply_weights rg.A a rg.Ny_out rg.Nx_out).shape = S ++ [rg.Ny_out, rg.Nx_out] := by
  have hlen : a.shape.length - 2 = S.length := by rw [h]; simp
  have hdrop : a.shape.drop (a.shape.length - 2) = [rg.Ny_in, rg.Nx_in] := by
    rw [hlen, h]; exact List.drop_left S [rg.Ny_in, rg.Nx_in]
  have htake : a.shape.take (a.shape.length - 2) = S := by
    rw [hlen, h]; exact List.take_left S [rg.Ny_in, rg.Nx_in]
  constructor
  · simp [Regridder.regrid_numpy, hdrop]
  · simp only [apply_weights, htake]

/-- Witness for C1: a pure 2D input of the input-grid shape regrids to a
pure 2D output of the output-grid shape, with no leftover batch axis. -/
theorem regrid_numpy_shape_consistency_witness :
    (⟨[3, 4], List.replicate 12 (0 : Rat)⟩ : NpArray).shape
        = [] ++ [exRegridder.Ny_in, exRegridder.Nx_in] ∧
    (exRegridder.regrid_numpy ⟨[3, 4], List.replicate 12 (0 : Rat)⟩
        = .ok (apply_weights exRegridder.A ⟨[3, 4], List.replicate 12 (0 : Rat)⟩
            exRegridder.Ny_out exRegridder.Nx_out) ∧
      (apply_weights exRegridder.A ⟨[3, 4], List.replicate 12 (0 : Rat)⟩
          exRegridder.Ny_out exRegridder.Nx_out).shape
        = [] ++ [exRegridder.Ny_out, exRegridder.Nx_out]) :=
  ⟨by decide,
   regrid_numpy_shape_consistency exRegridder ⟨[3, 4], List.replicate 12 (0 : Rat)⟩ []
     (by decide)⟩

/-- C6: calling `regrid_numpy` on an array whose trailing two axes differ
from the declared input-grid shape yields the shape assertion error and
never reaches weight application; with matching trailing axes the weights
are applied and no error is raised. -/
theorem regrid_numpy_shape_check (rg : Regridder) (a : NpArray) :
    (a.shape.drop (a.shape.length - 2) ≠ [rg.Ny_in, rg.Nx_in] →
      rg.regrid_numpy a = .error .shapeError) ∧
    (a.shape.drop (a.shape.length - 2) = [rg.Ny_in, rg.Nx_in] →
      rg.regrid_numpy a = .ok (apply_weights rg.A a rg.Ny_out rg.Nx_out)) := by
  constructor
  · intro h
    simp only [Regridder.regrid_numpy, if_neg h]
  · intro h
    simp only [Regridder.regrid_numpy, if_pos h]

/-- Witness for C6: a 2x2 input against the 3x4 input grid is rejected
with the shape error. -/
theorem regrid_numpy_shape_check_witness :
    (⟨[2, 2], [0, 0, 0, 0]⟩ : NpArray).shape.drop
        ((⟨[2, 2], [0, 0, 0, 0]⟩ : NpArray).shape.length - 2)
      ≠ [exRegridder.Ny_in, exRegridder.Nx_in] ∧
    exRegridder.regrid_numpy ⟨[2, 2], [0, 0, 0, 0]⟩ = .error .shapeError :=
  ⟨by decide,
   (regrid_numpy_shape_check exRegridder ⟨[2, 2], [0, 0, 0, 0]⟩).1 (by decide)⟩

/-- C10: an input of rank 0 or 1 is always rejected with the shape error,
since its trailing tuple has fewer than two entries and can never equal
the two-element input-grid shape. -/
theorem regrid_numpy_sub2d_error (rg : Regridder) (a : NpArray)
    (h : a.shape.length < 2) :
    rg.regrid_numpy a = .error .shapeError := by
  have h0 : a.shape.length - 2 = 0 := by omega
  have hne : a.shape ≠ [rg.Ny_in, rg.Nx_in] := by
    intro he
    rw [he] at h
    simp at h
  simp only [Regridder.regrid_numpy, h0, List.drop_zero, if_neg hne]

/-- Witness for C10: a rank-1 input of length 5 is rejected. -/
theorem regrid_numpy_sub2d_error_witness :
    (⟨[5], [0, 0, 0, 0, 0]⟩ : NpArray).shape.length < 2 ∧
    exRegridder.regrid_numpy ⟨[5], [0, 0, 0, 0, 0]⟩ = .error .shapeError :=
  ⟨by decide,
   regrid_numpy_sub2d_error exRegridder ⟨[5], [0, 0, 0, 0, 0]⟩ (by decide)⟩

/-- C7: `__call__` dispatches exactly by input representation: numpy
arrays to `regrid_numpy`, `DataArray`s to `regrid_dataarray`, and any
other representation to `TypeError` with no regridding performed. -/
theorem call_dispatch (rg : Regridder) (a : NpArray) (d : DataArray) :
    rg.call (RegridInput.npArr a) = (rg.regrid_numpy a).map RegridOutput.npArr ∧
    rg.call (RegridInput.dataArr d) = (rg.regrid_dataarray d).map RegridOutput.dataArr ∧
    rg.call RegridInput.other = .error .typeError :=
  ⟨rfl, rfl, rfl⟩

theorem pathExists_writeFile_self (fs : FS) (f : String) (w : List (Nat × Nat × Rat)) :
    (fs.writeFile f w).pathExists f = true := by
  simp [FS.writeFile, FS.pathExists]

theorem pathExists_removeFile_self (fs : FS) (f : String) :
    (fs.removeFile f).pathExists f = false := by
  rcases fs with ⟨l⟩
  simp only [FS.removeFile, FS.pathExists, List.any_filter]
  simp

theorem pathExists_removeFile_ne (fs : FS) (f g : String) (h : g ≠ f) :
    (fs.removeFile f).pathExists g = fs.pathExists g := by
  rcases fs with ⟨l⟩
  simp only [FS.removeFile, FS.pathExists, List.any_filter]
  congr 1
  funext p
  by_cases hp : p.1 = g
  · simp [hp, h]
  · simp [hp]

theorem pathExists_writeFile_ne (fs : FS) (f g : String) (h : g ≠ f) (w : List (Nat × Nat × Rat)) :
    (fs.writeFile f w).pathExists g = fs.pathExists g := by
  have hne : ¬f = g := fun hfg => absurd hfg.symm h
  simp only [FS.writeFile, FS.pathExists, List.any_cons]
  simp [hne]

/-- C2: the weight-artifact decision of `_write_weight_file` — the engine
is invoked exactly once unless the file exists and reuse is requested
(then zero times and the state is untouched), the file exists afterwards
in every branch, and an existing file with `reuse_weights=False` is warned
about and removed before the engine rebuild. -/
theorem write_weight_file_policy (engine : EngineFn) (gin gout : GridHandle)
    (method fn : String) (reuse : Bool) (fs : FS) :
    ((write_weight_file engine gin gout method fn reuse fs).2.count Event.engineBuild
        = if fs.pathExists fn && reuse then 0 else 1) ∧
    ((write_weight_file engine gin gout method fn reuse fs).1.pathExists fn = true) ∧
    (fs.pathExists fn = true → reuse = true →
        write_weight_file engine gin gout method fn reuse fs = (fs, [Event.reuseNotice])) ∧
    (fs.pathExists fn = true → reuse = false →
        (write_weight_file engine gin gout method fn reuse fs).2
          = [Event.overwriteNotice, Event.fileRemoved, Event.engineBuild]) ∧
    (fs.pathExists fn = false →
        (write_weight_file engine gin gout method fn reuse fs).2
          = [Event.createNotice, Event.engineBuild]) := by
  cases hex : fs.pathExists fn <;> cases reuse <;>
    simp [write_weight_file, hex, esmf_regrid_build, pathExists_writeFile_self,
      List.count_cons, List.count_nil]

/-- Witness for C2: with the weight file present and `reuse_weights=true`,
construction-time weight handling performs no engine call and leaves the
file system untouched. -/
theorem write_weight_file_policy_witness :
    (⟨[("w.nc", [])]⟩ : FS).pathExists "w.nc" = true ∧
    write_weight_file exEngine exRegridder.grid_in exRegridder.grid_out "bilinear"
        "w.nc" true ⟨[("w.nc", [])]⟩ = (⟨[("w.nc", [])]⟩, [Event.reuseNotice]) :=
  ⟨by decide,
   (write_weight_file_policy exEngine exRegridder.grid_in exRegridder.grid_out
      "bilinear" "w.nc" true ⟨[("w.nc", [])]⟩).2.2.1 (by decide) rfl⟩

/-- C9: `clean_weight_file` returns the regridder unchanged (so the loaded
sparse matrix survives), leaves the weight file absent afterwards, keeps
every other file untouched, and in the already-absent case only notes the
fact instead of failing. -/
theorem clean_weight_file_spec (rg : Regridder) (fs : FS) :
    (rg.clean_weight_file fs).1 = rg ∧
    (rg.clean_weight_file fs).2.1.pathExists rg.filename = false ∧
    (∀ f, f ≠ rg.filename →
        (rg.clean_weight_file fs).2.1.pathExists f = fs.pathExists f) ∧
    (fs.pathExists rg.filename = false → (rg.clean_weight_file fs).2.1 = fs) ∧
    (rg.clean_weight_file fs).2.2
      = (if fs.pathExists rg.filename then [Event.removeNotice]
         else [Event.alreadyRemovedNotice]) := by
  cases hex : fs.pathExists rg.filename <;>
    simp [Regridder.clean_weight_file, hex, pathExists_removeFile_self]
  intro f hf
  exact pathExists_removeFile_ne fs rg.filename f hf

/-- Witness for C9: removing the weight file of the example regridder
keeps the regridder intact and does not disturb an unrelated file. -/
theorem clean_weight_file_spec_witness :
    (exRegridder.clean_weight_file ⟨[("bilinear_3x4_2x2.nc", []), ("other.nc", [])]⟩).1
        = exRegridder ∧
    ("other.nc" ≠ exRegridder.filename) ∧
    (exRegridder.clean_weight_file ⟨[("bilinear_3x4_2x2.nc", []), ("other.nc", [])]⟩).2.1.pathExists
        "other.nc"
      = (⟨[("bilinear_3x4_2x2.nc", []), ("other.nc", [])]⟩ : FS).pathExists "other.nc" :=
  ⟨(clean_weight_file_spec exRegridder ⟨[("bilinear_3x4_2x2.nc", []), ("other.nc", [])]⟩).1,
   by decide,
   (clean_weight_file_spec exRegridder
      ⟨[("bilinear_3x4_2x2.nc", []), ("other.nc", [])]⟩).2.2.1 "other.nc" (by decide)⟩

theorem shape2_ok (a : NpArray) (ny nx : Nat) (h : shape2 a = .ok (ny, nx)) :
    a.shape = [ny, nx] := by
  unfold shape2 at h
  split at h
  · rename_i heq
    injection h with h'
    injection h' with h1 h2
    rw [heq, h1, h2]
  · exact Except.noConfusion h

theorem ds_to_ESMFgrid_periodic (ds : DSGrid) (nb : Bool) (p : Option Bool)
    (g : GridHandle) (h : ds_to_ESMFgrid ds nb p = .ok g) : g.periodic = p := by
  unfold ds_to_ESMFgrid at h
  split at h
  · split at h
    · injection h with h'
      rw [← h']
      rfl
    · exact Except.noConfusion h
  · injection h with h'
    rw [← h']
    rfl

theorem init_ok_fields (engine : EngineFn) (ds_in ds_out : DSGrid) (method : String)
    (periodic : Bool) (fname : Option String) (reuse : Bool) (fs : FS)
    (rg : Regridder) (fs' : FS) (evs : List Event)
    (h : Regridder.init engine ds_in ds_out method periodic fname reuse fs
      = .ok (rg, fs', evs)) :
    rg.method = method ∧
    rg.need_bounds = (method_switches method periodic).1 ∧
    rg.periodic = (method_switches method periodic).2 ∧
    rg.reuse_weights = reuse ∧
    ds_in.lon.shape = [rg.Ny_in, rg.Nx_in] ∧
    ds_out.lon.shape = [rg.Ny_out, rg.Nx_out] ∧
    rg.grid_in.periodic = some rg.periodic ∧
    (fname = none → rg.filename
        = get_default_filename method rg.Ny_in rg.Nx_in rg.Ny_out rg.Nx_out rg.periodic) ∧
    (∀ f0, fname = some f0 → rg.filename = f0) := by
  simp only [Regridder.init] at h
  rcases hgin : ds_to_ESMFgrid ds_in (method_switches method periodic).1
      (some (method_switches method periodic).2) with e1 | grid_in
  · simp only [hgin] at h
    exact Except.noConfusion h
  simp only [hgin] at h
  rcases hgout : ds_to_ESMFgrid ds_out (method_switches method periodic).1 none
      with e2 | grid_out
  · simp only [hgout] at h
    exact Except.noConfusion h
  simp only [hgout] at h
  rcases hsin : shape2 ds_in.lon with e3 | sh_in
  · simp only [hsin] at h
    exact Except.noConfusion h
  simp only [hsin] at h
  rcases hsout : shape2 ds_out.lon with e4 | sh_out
  · simp only [hsout] at h
    exact Except.noConfusion h
  simp only [hsout] at h
  simp only [Except.ok.injEq, Prod.mk.injEq] at h
  obtain ⟨hrg, -, -⟩ := h
  subst hrg
  refine ⟨rfl, rfl, rfl, rfl, ?_, ?_, ?_, ?_, ?_⟩
  · exact shape2_ok _ _ _ hsin
  · exact shape2_ok _ _ _ hsout
  · exact ds_to_ESMFgrid_periodic _ _ _ _ hgin
  · intro hf
    subst hf
    rfl
  · intro f0 hf
    subst hf
    rfl

theorem method_switches_eq (m : String) (p : Bool) :
    method_switches m p = (m == "conservative", if m == "conservative" then false else p) := by
  unfold method_switches
  cases hm : m == "conservative" <;> simp [hm]

/-- C5: on every successful construction, `need_bounds` is true exactly
for the conservative method, the stored `periodic` is the caller's value
except that conservative forces it to false, the stored value is the one
passed to the input grid build, and (when no filename is supplied) the
one used for filename derivation. -/
theorem method_switch_spec (engine : EngineFn) (ds_in ds_out : DSGrid) (method : String)
    (periodic : Bool) (fname : Option String) (reuse : Bool) (fs : FS)
    (rg : Regridder) (fs' : FS) (evs : List Event)
    (h : Regridder.init engine ds_in ds_out method periodic fname reuse fs
      = .ok (rg, fs', evs)) :
    rg.need_bounds = (method == "conservative") ∧
    rg.periodic = (if method == "conservative" then false else periodic) ∧
    rg.grid_in.periodic = some rg.periodic ∧
    (fname = none → rg.filename
        = get_default_filename method rg.Ny_in rg.Nx_in rg.Ny_out rg.Nx_out rg.periodic) := by
  obtain ⟨-, hnb, hp, -, -, -, hgi, hfn, -⟩ :=
    init_ok_fields engine ds_in ds_out method periodic fname reuse fs rg fs' evs h
  rw [method_switches_eq] at hnb hp
  exact ⟨hnb, hp, hgi, hfn⟩

/-- Concrete 4x5 input-grid corner longitude. -/
def exLonBIn : NpArray := ⟨[4, 5], (List.range 20).map (fun n => (n : Rat))⟩

/-- Concrete 4x5 input-grid corner latitude. -/
def exLatBIn : NpArray := ⟨[4, 5], (List.range 20).map (fun n => ((n + 100 : Nat) : Rat))⟩

/-- Concrete 3x3 output-grid corner longitude. -/
def exLonBOut : NpArray := ⟨[3, 3], (List.range 9).map (fun n => (n : Rat))⟩

/-- Concrete 3x3 output-grid corner latitude. -/
def exLatBOut : NpArray := ⟨[3, 3], (List.range 9).map (fun n => ((n + 100 : Nat) : Rat))⟩

/-- Concrete input grid structure with corner arrays. -/
def exDsInB : DSGrid := ⟨exLonIn, exLatIn, some exLonBIn, some exLatBIn⟩

/-- Concrete output grid structure with corner arrays. -/
def exDsOutB : DSGrid := ⟨exLonOut, exLatOut, some exLonBOut, some exLatBOut⟩

/-- The file system produced by building the conservative example. -/
def exFsCons : FS := fs0.writeFile "conservative_3x4_2x2.nc" []

/-- The regridder produced by the conservative example construction. -/
def exRegridderCons : Regridder :=
  { lon_out := exLonOut, lat_out := exLatOut, need_bounds := true,
    method := "conservative", periodic := false, reuse_weights := false,
    grid_in := add_corner (esmf_grid exLonIn.transpose exLatIn.transpose (some false))
      exLonBIn.transpose exLatBIn.transpose,
    grid_out := add_corner (esmf_grid exLonOut.transpose exLatOut.transpose none)
      exLonBOut.transpose exLatBOut.transpose,
    Ny_in := 3, Nx_in := 4, Ny_out := 2, Nx_out := 2, N_in := 12, N_out := 4,
    filename := "conservative_3x4_2x2.nc", A := ⟨4, 12, []⟩ }

/-- Witness for C5: constructing with the conservative method and
`periodic=True` stores `periodic=false` (forced), `need_bounds=true`, and
passes the forced value to the grid build and the default filename. -/
theorem method_switch_spec_witness :
    Regridder.init exEngine exDsInB exDsOutB "conservative" true none false fs0
        = .ok (exRegridderCons, exFsCons, [Event.createNotice, Event.engineBuild]) ∧
    (exRegridderCons.need_bounds = ("conservative" == "conservative") ∧
     exRegridderCons.periodic = (if "conservative" == "conservative" then false else true) ∧
     exRegridderCons.grid_in.periodic = some exRegridderCons.periodic ∧
     ((none : Option String) = none → exRegridderCons.filename
        = get_default_filename "conservative" exRegridderCons.Ny_in exRegridderCons.Nx_in
            exRegridderCons.Ny_out exRegridderCons.Nx_out exRegridderCons.periodic)) := by
  have hinit : Regridder.init exEngine exDsInB exDsOutB "conservative" true none false fs0
      = .ok (exRegridderCons, exFsCons, [Event.createNotice, Event.engineBuild]) := by
    decide
  exact ⟨hinit,
    method_switch_spec exEngine exDsInB exDsOutB "conservative" true none false fs0
      exRegridderCons exFsCons [Event.createNotice, Event.engineBuild] hinit⟩

/-- C4: when no filename is supplied, the weight-file name is the
deterministic string `{method}_{Ny_in}x{Nx_in}_{Ny_out}x{Nx_out}` followed
by `_peri` exactly when the stored (post-forcing) periodic flag is true,
plus the `.nc` extension. -/
theorem default_filename_spec (engine : EngineFn) (ds_in ds_out : DSGrid) (method : String)
    (periodic : Bool) (reuse : Bool) (fs : FS)
    (rg : Regridder) (fs' : FS) (evs : List Event)
    (h : Regridder.init engine ds_in ds_out method periodic none reuse fs
      = .ok (rg, fs', evs)) :
    rg.filename = rg.method ++ "_" ++ toString rg.Ny_in ++ "x" ++ toString rg.Nx_in ++ "_"
      ++ toString rg.Ny_out ++ "x" ++ toString rg.Nx_out
      ++ (if rg.periodic then "_peri" else "") ++ ".nc" := by
  obtain ⟨hm, -, -, -, -, -, -, hfn, -⟩ :=
    init_ok_fields engine ds_in ds_out method periodic none reuse fs rg fs' evs h
  rw [hfn rfl, hm]
  cases hp : rg.periodic <;>
    simp [get_default_filename, hp, String.append_assoc, String.append_empty]

/-- The file system produced by building the bilinear example. -/
def exFs1 : FS := fs0.writeFile "bilinear_3x4_2x2.nc" []

/-- Witness for C4: the 3x4-to-2x2 bilinear non-periodic construction
derives the default filename `bilinear_3x4_2x2.nc`. -/
theorem default_filename_spec_witness :
    Regridder.init exEngine exDsIn exDsOut "bilinear" false none false fs0
        = .ok (exRegridder, exFs1, [Event.createNotice, Event.engineBuild]) ∧
    exRegridder.filename = "bilinear_3x4_2x2.nc" := by
  have hinit : Regridder.init exEngine exDsIn exDsOut "bilinear" false none false fs0
      = .ok (exRegridder, exFs1, [Event.createNotice, Event.engineBuild]) := by
    decide
  refine ⟨hinit, ?_⟩
  rw [default_filename_spec exEngine exDsIn exDsOut "bilinear" false false fs0
    exRegridder exFs1 [Event.createNotice, Event.engineBuild] hinit]
  decide

/-- Concrete 1D longitude of length 4. -/
def exLon1d : NpArray := ⟨[4], [0, 1, 2, 3]⟩

/-- Concrete 1D latitude of length 3. -/
def exLat1d : NpArray := ⟨[3], [0, 1, 2]⟩

/-- Concrete input grid with 1D coordinates. -/
def exDs1d : DSGrid := ⟨exLon1d, exLat1d, none, none⟩

/-- C3 (refuting the claim as a statement about the code): the dead helper
`as_2d_mesh` would expand the 1D longitude of length 4 and latitude of
length 3 into the claimed `(3, 4)` outer-product mesh, but regridder
construction never calls it: with the same 1D coordinates, construction
fails (the 1D shape cannot be unpacked into `Ny_in, Nx_in`) instead of
behaving like the 2D path. -/
theorem oneD_coords_construction_bug :
    as_2d_mesh exLon1d exLat1d
      = .ok (⟨[3, 4], [0, 1, 2, 3, 0, 1, 2, 3, 0, 1, 2, 3]⟩,
             ⟨[3, 4], [0, 0, 0, 0, 1, 1, 1, 1, 2, 2, 2, 2]⟩) ∧
    Regridder.init exEngine exDs1d exDsOut "bilinear" false none false fs0
      = .error XError.valueError := by
  constructor
  · decide
  · decide

theorem hasKey_cons_elim {α : Type _} (p : String × α) (t : List (String × α))
    (q : String) (hq : hasKey (p :: t) q = false) :
    ¬q = p.1 ∧ hasKey t q = false := by
  unfold hasKey lookupKey at hq
  by_cases h : q = p.1
  · rw [if_pos h] at hq
    simp at hq
  · rw [if_neg h] at hq
    exact ⟨h, hq⟩

theorem lookupKey_map_replace_ne (q : String) (v : Coord) (k : String)
    (cs : List (String × Coord)) (hk : ¬k = q) :
    lookupKey (cs.map (fun p => if p.1 = q then (q, v) else p)) k = lookupKey cs k := by
  induction cs with
  | nil => rfl
  | cons p t ih =>
    by_cases hp : p.1 = q
    · have hkp : ¬k = p.1 := fun h => hk (h.trans hp)
      simp only [List.map_cons, if_pos hp, lookupKey]
      rw [if_neg hk, if_neg hkp, ih]
    · by_cases hkp : k = p.1
      · simp only [List.map_cons, if_neg hp, lookupKey]
        rw [if_pos hkp, if_pos hkp]
      · simp only [List.map_cons, if_neg hp, lookupKey]
        rw [if_neg hkp, if_neg hkp, ih]

theorem lookupKey_map_replace_eq (q : String) (v : Coord)
    (cs : List (String × Coord)) (hq : hasKey cs q = true) :
    lookupKey (cs.map (fun p => if p.1 = q then (q, v) else p)) q = some v := by
  induction cs with
  | nil =>
    unfold hasKey lookupKey at hq
    simp at hq
  | cons p t ih =>
    by_cases hp : p.1 = q
    · simp only [List.map_cons, if_pos hp, lookupKey]
      simp
    · have hqp : ¬q = p.1 := fun h => hp h.symm
      have hq' : hasKey t q = true := by
        unfold hasKey lookupKey at hq
        rw [if_neg hqp] at hq
        exact hq
      simp only [List.map_cons, if_neg hp, lookupKey]
      rw [if_neg hqp, ih hq']

theorem lookupKey_append_single (q : String) (v : Coord) (k : String)
    (cs : List (String × Coord)) (hq : hasKey cs q = false) :
    lookupKey (cs ++ [(q, v)]) k = if k = q then some v else lookupKey cs k := by
  induction cs with
  | nil =>
    simp only [List.nil_append, lookupKey]
  | cons p t ih =>
    obtain ⟨hqp, htq⟩ := hasKey_cons_elim p t q hq
    by_cases hk : k = p.1
    · have hkq : ¬k = q := fun he => hqp (he ▸ hk)
      simp only [List.cons_append, List.append_eq, lookupKey]
      rw [if_pos hk, if_neg hkq, if_pos hk]
    · simp only [List.cons_append, List.append_eq, lookupKey]
      rw [if_neg hk, if_neg hk, ih htq]

theorem lookupKey_insertCoord (cs : List (String × Coord)) (q : String) (v : Coord)
    (k : String) :
    lookupKey (insertCoord cs q v) k = if k = q then some v else lookupKey cs k := by
  unfold insertCoord
  by_cases hq : hasKey cs q = true
  · rw [if_pos hq]
    by_cases hk : k = q
    · subst hk
      rw [if_pos rfl, lookupKey_map_replace_eq k v cs hq]
    · rw [if_neg hk, lookupKey_map_replace_ne q v k cs hk]
  · have hq' : hasKey cs q = false := by
      revert hq
      cases hasKey cs q <;> simp
    rw [if_neg hq, lookupKey_append_single q v k cs hq']

theorem copyExtraCoords_ok (src : DataArray) (ds : List String)
    (cs : List (String × Coord))
    (hall : ∀ d ∈ ds, (lookupKey src.coords d).isSome) :
    ∃ cs', copyExtraCoords src ds cs = .ok cs'
      ∧ (∀ k, k ∉ ds → lookupKey cs' k = lookupKey cs k)
      ∧ (ds.Nodup → ∀ d ∈ ds, lookupKey cs' d = lookupKey src.coords d) := by
  induction ds generalizing cs with
  | nil =>
    exact ⟨cs, rfl, fun k _ => rfl, fun _ d hd => absurd hd (List.not_mem_nil d)⟩
  | cons d t ih =>
    have hd := hall d (List.mem_cons_self d t)
    obtain ⟨c, hc⟩ := Option.isSome_iff_exists.mp hd
    obtain ⟨cs', h1, h2, h3⟩ := ih (insertCoord cs d c)
      (fun x hx => hall x (List.mem_cons_of_mem d hx))
    refine ⟨cs', ?_, ?_, ?_⟩
    · simp only [copyExtraCoords, hc, h1]
    · intro k hk
      have hkd : k ≠ d := fun hkd => hk (hkd ▸ List.mem_cons_self d t)
      have hkt : k ∉ t := fun hkt => hk (List.mem_cons_of_mem d hkt)
      rw [h2 k hkt, lookupKey_insertCoord, if_neg hkd]
    · intro hnd x hx
      have hndt : t.Nodup := (List.nodup_cons.mp hnd).2
      have hdnt : d ∉ t := (List.nodup_cons.mp hnd).1
      rcases List.mem_cons.mp hx with hxd | hxt
      · subst hxd
        rw [h2 x hdnt, lookupKey_insertCoord, if_pos rfl, hc]
      · exact h3 hndt x hxt

/-- C8: on a `DataArray` whose raw values regrid successfully (and whose
extra dimensions are distinct, distinct from `lon`/`lat`, and each carry a
coordinate), `regrid_dataarray` returns a `DataArray` with the same
dimension names and name, the regridded payload, the output grid's
longitude/latitude attached over the trailing two dimension names, every
extra dimension's coordinate copied across unchanged, and the method
recorded as the `regrid_method` annotation. -/
theorem regrid_dataarray_metadata (rg : Regridder) (dr : DataArray) (out : NpArray)
    (hok : rg.regrid_numpy dr.values = .ok out)
    (hnodup : (dr.dims.take (dr.dims.length - 2)).Nodup)
    (hlon : "lon" ∉ dr.dims.take (dr.dims.length - 2))
    (hlat : "lat" ∉ dr.dims.take (dr.dims.length - 2))
    (hcoords : ∀ d ∈ dr.dims.take (dr.dims.length - 2), (lookupKey dr.coords d).isSome) :
    ∃ res, rg.regrid_dataarray dr = .ok res
      ∧ res.dims = dr.dims
      ∧ res.name = dr.name
      ∧ res.values = out
      ∧ lookupKey res.coords "lon"
          = some (dr.dims.drop (dr.dims.length - 2), rg.lon_out)
      ∧ lookupKey res.coords "lat"
          = some (dr.dims.drop (dr.dims.length - 2), rg.lat_out)
      ∧ (∀ d ∈ dr.dims.take (dr.dims.length - 2),
            lookupKey res.coords d = lookupKey dr.coords d)
      ∧ lookupKey res.attrs "regrid_method" = some rg.method := by
  obtain ⟨cs', h1, h2, h3⟩ := copyExtraCoords_ok dr (dr.dims.take (dr.dims.length - 2))
    (insertCoord (insertCoord [] "lon" (dr.dims.drop (dr.dims.length - 2), rg.lon_out))
      "lat" (dr.dims.drop (dr.dims.length - 2), rg.lat_out)) hcoords
  have hres : rg.regrid_dataarray dr = .ok
      { name := dr.name, dims := dr.dims, values := out, coords := cs',
        attrs := [("regrid_method", rg.method)] } := by
    simp only [Regridder.regrid_dataarray, hok, h1]
  refine ⟨_, hres, rfl, rfl, rfl, ?_, ?_, ?_, ?_⟩
  · show lookupKey cs' "lon" = some (dr.dims.drop (dr.dims.length - 2), rg.lon_out)
    rw [h2 "lon" hlon, lookupKey_insertCoord, if_neg (by decide), lookupKey_insertCoord,
      if_pos rfl]
  · show lookupKey cs' "lat" = some (dr.dims.drop (dr.dims.length - 2), rg.lat_out)
    rw [h2 "lat" hlat, lookupKey_insertCoord, if_pos rfl]
  · intro d hd
    exact h3 hnodup d hd
  · show lookupKey [("regrid_method", rg.method)] "regrid_method" = some rg.method
    rw [lookupKey, if_pos rfl]

/-- A concrete `DataArray` with one extra `time` dimension carrying a
coordinate, over the 3x4 example input grid. -/
def exDr : DataArray :=
  { name := some "T", dims := ["time", "y", "x"],
    values := ⟨[2, 3, 4], List.replicate 24 1⟩,
    coords := [("time", (["time"], ⟨[2], [10, 20]⟩))],
    attrs := [] }

/-- The numeric result of regridding `exDr`'s payload. -/
def exOut : NpArray := ⟨[2, 2, 2], List.replicate 8 0⟩

/-- Witness for C8: regridding the concrete `DataArray` keeps the
dimension names and the `time` coordinate, attaches the output grid's
coordinates and the method annotation, and carries the numeric result of
the pure apply. -/
theorem regrid_dataarray_metadata_witness :
    (exRegridder.regrid_numpy exDr.values = .ok exOut ∧
     (exDr.dims.take (exDr.dims.length - 2)).Nodup ∧
     "lon" ∉ exDr.dims.take (exDr.dims.length - 2) ∧
     "lat" ∉ exDr.dims.take (exDr.dims.length - 2) ∧
     (∀ d ∈ exDr.dims.take (exDr.dims.length - 2), (lookupKey exDr.coords d).isSome)) ∧
    (∃ res, exRegridder.regrid_dataarray exDr = .ok res
      ∧ res.dims = exDr.dims
      ∧ res.name = exDr.name
      ∧ res.values = exOut
      ∧ lookupKey res.coords "lon"
          = some (exDr.dims.drop (exDr.dims.length - 2), exRegridder.lon_out)
      ∧ lookupKey res.coords "lat"
          = some (exDr.dims.drop (exDr.dims.length - 2), exRegridder.lat_out)
      ∧ (∀ d ∈ exDr.dims.take (exDr.dims.length - 2),
            lookupKey res.coords d = lookupKey exDr.coords d)
      ∧ lookupKey res.attrs "regrid_method" = some exRegridder.method) :=
  ⟨⟨by decide, by decide, by decide, by decide, by decide⟩,
   regrid_dataarray_metadata exRegridder exDr exOut (by decide) (by decide) (by decide)
     (by decide) (by decide)⟩

end XESMF
